import Mathlib

/-!
Shallow embedding of `src/bigquery_to_dataverse.py`, an incremental
BigQuery → Dataverse sync engine: watermark persistence, row mapping,
batch encoding, retrying HTTP transport, and the page-driven sync loop.
Timestamps are modelled as strings (the driver compares them with the
string ordering, as Python does), monetary-free numerics as `Nat`/`Rat`.
-/

namespace BqToDv

/-- A single quote character, written via its code point. -/
def sq : String := String.singleton (Char.ofNat 39)

/-- Configuration constants fixed in the source (module-level bindings). -/
def DV_ENTITY : String := "new_customers"

def ALT_KEY_NAME : String := "externalid"

def MAX_R : Nat := 6

def BASE_BACKOFF : Rat := 2

def WATERMARK_FILE : String := "watermark.json"

def DEFAULT_WATERMARK : String := "2020-01-01T00:00:00Z"

/-- One source-side change record, as produced by the BigQuery row: the
four scalar columns plus the change timestamp `updated_at` (modelled in
its textual UTC form, which is what the driver compares). Nullable
columns are `Option String`. -/
structure Record where
  externalid : Option String
  name : Option String
  email : Option String
  phone : Option String
  updated_at : String
deriving Repr, DecidableEq

/-- A JSON-like field/value map entry for the PATCH body. -/
abbrev Body := List (String × Option String)

/-- Python `str(x)` for the identifier slot: `str` of a string is itself. -/
def pyStr (s : String) : String := s

/-- Python string comparison `a < b`: lexicographic on code points,
which is the lexicographic order on the underlying character lists. -/
def pyStrLt (a b : String) : Bool := decide (a.data < b.data)

/-- Python string comparison `a <= b`. -/
def pyStrLe (a b : String) : Bool := decide (a.data ≤ b.data)

/-- Python str.replace specialised to the single-character pattern used
by the source: every single-quote character is doubled. -/
def escQuoteChars : List Char → List Char
  | [] => []
  | c :: cs =>
    if c = Char.ofNat 39 then Char.ofNat 39 :: Char.ofNat 39 :: escQuoteChars cs
    else c :: escQuoteChars cs

/-- Single-quote doubling applied to a whole string (the replace call
the source performs on the identifier). -/
def escapeQuotes (s : String) : String := String.mk (escQuoteChars s.data)

/-- Source `map_row_to_request`: builds the PATCH body from the four
columns and the alternate-key resource path
`new_customers(externalid=<single-quoted escaped id>)`, escaping single
quotes by doubling; a `None` identifier becomes the empty string. The
function is total: it has no failure branch. -/
def map_row_to_request (row : Record) : String × Body :=
  let body : Body :=
    [("new_externalid", row.externalid),
     ("name", row.name),
     ("emailaddress1", row.email),
     ("telephone1", row.phone)]
  let ext : String :=
    match row.externalid with
    | some s => escapeQuotes (pyStr s)
    | none => ""
  let url_path := DV_ENTITY ++ "(" ++ ALT_KEY_NAME ++ "=" ++ sq ++ ext ++ sq ++ ")"
  (url_path, body)

/-!
## Transport: `should_retry` / `request_with_retry`

`request_with_retry` is a `while True` loop issuing one HTTP request per
iteration. We embed it with an explicit response stream (the `i`-th
iteration observes `responses i`), a jitter stream standing for the
`random.uniform(0.0, 0.5)` draws, and a fuel bound on the number of loop
iterations; `outOfFuel` means the loop was still running after `fuel`
iterations. Besides the result we collect the list of waits passed to
`time.sleep`, in order.
-/

/-- An HTTP response, as the retry loop observes it: the status code and
the optional `Retry-After` header. The header is kept abstract as the
outcome of Python's `float(...)` parse: `some (some q)` — header present
and parses as the number `q`; `some none` — header present but
`float` raises `ValueError`; `none` — header absent. -/
structure Resp where
  status : Nat
  retryAfter : Option (Option Rat)
deriving Repr, DecidableEq

/-- The success statuses accepted by `request_with_retry`. -/
def isSuccessStatus (s : Nat) : Bool := s == 200 || s == 201 || s == 202 || s == 204

/-- Source `should_retry`: the transient status set. -/
def should_retry (status : Nat) : Bool :=
  status == 429 || status == 500 || status == 502 || status == 503 || status == 504

/-- Statuses on which `Response.raise_for_status()` raises `HTTPError`:
client errors 400–499 and server errors 500–599. -/
def raisesForStatus (s : Nat) : Bool := 400 ≤ s && s < 600

/-- The wait computed for one retry, with `attempt` already incremented
(numbered from 1): an explicit parsable `Retry-After` value is used
verbatim; a present-but-unparsable header and an absent header both fall
back to `BASE_BACKOFF * 2 ** (attempt - 1) + rand_jitter()`. -/
def computeWait (retryAfter : Option (Option Rat)) (attempt : Nat) (jitter : Rat) : Rat :=
  match retryAfter with
  | some (some w) => w
  | some none => BASE_BACKOFF * 2 ^ (attempt - 1) + jitter
  | none => BASE_BACKOFF * 2 ^ (attempt - 1) + jitter

/-- Result of a bounded run of the `request_with_retry` loop. -/
inductive RwrResult where
  /-- The loop returned this response (status in the success set). -/
  | success (r : Resp)
  /-- Python raise_for_status raised `HTTPError` for this status. -/
  | httpError (status : Nat)
  /-- The loop had not returned nor raised after the given fuel. -/
  | outOfFuel
deriving Repr, DecidableEq

/-- The `while True` loop of `request_with_retry`: `i` counts requests
issued so far, `attempt` is the source's retry counter, `waits` the
sleeps performed so far. One unit of fuel per loop iteration. -/
def request_with_retry (responses : Nat → Resp) (jit : Nat → Rat) :
    Nat → Nat → List Rat → Nat → RwrResult × List Rat
  | _, _, waits, 0 => (RwrResult.outOfFuel, waits)
  | i, attempt, waits, fuel + 1 =>
    let resp := responses i
    if isSuccessStatus resp.status then
      (RwrResult.success resp, waits)
    else if should_retry resp.status && attempt < MAX_R then
      let a := attempt + 1
      let wait := computeWait resp.retryAfter a (jit i)
      request_with_retry responses jit (i + 1) a (waits ++ [wait]) fuel
    else if raisesForStatus resp.status then
      (RwrResult.httpError resp.status, waits)
    else
      request_with_retry responses jit (i + 1) attempt waits fuel

/-!
## Watermark store: `save_watermark` / `load_watermark`

The store is a pair of file-system effects. `save_watermark` is embedded
as the exact list of file-system operations the source performs (one
whole-file write to the `.tmp` path, one `os.replace`); the file system
itself is a path → content map. `load_watermark` is embedded over the
outcome of opening and JSON-parsing the watermark file.
-/

/-- Characters of the JSON string escape performed by `json.dump`:
backslash and double quote are escaped (control characters, which never
occur in timestamp strings, are elided from the model). -/
def jsonEscChars : List Char → List Char
  | [] => []
  | c :: cs =>
    if c = Char.ofNat 92 then Char.ofNat 92 :: Char.ofNat 92 :: jsonEscChars cs
    else if c = Char.ofNat 34 then Char.ofNat 92 :: Char.ofNat 34 :: jsonEscChars cs
    else c :: jsonEscChars cs

/-- JSON serialization of a string value. -/
def jsonStr (s : String) : String := "\"" ++ String.mk (jsonEscChars s.data) ++ "\""

/-- Serialized one-key object written by json.dump for the watermark. -/
def jsonDumpLast (wm : String) : String := "\x7b\"last\": " ++ jsonStr wm ++ "\x7d"

/-- A file-system effect: a whole-file write, or `os.replace` (atomic
rename of `src` over `dst`). -/
inductive FsOp where
  | write (path content : String)
  | rename (src dst : String)
deriving Repr, DecidableEq

/-- A file system: newest-first association of paths to contents
(`none` marks a deleted path shadowing an older entry). -/
abbrev Fs := List (String × Option String)

/-- Read a whole file, `none` when the path does not exist. -/
def fsRead (fs : Fs) (p : String) : Option String := (fs.lookup p).join

/-- Apply one file-system effect. `os.replace` atomically makes the
destination hold the source's content and removes the source; on a
missing source it raises in Python, which no reachable call does here,
so that branch leaves the file system unchanged. -/
def applyOp (fs : Fs) : FsOp → Fs
  | FsOp.write p c => (p, some c) :: fs
  | FsOp.rename src dst =>
    match fsRead fs src with
    | some c => (src, none) :: (dst, some c) :: fs
    | none => fs

/-- Apply a sequence of file-system effects in order. -/
def applyOps (fs : Fs) (ops : List FsOp) : Fs := ops.foldl applyOp fs

/-- Source `save_watermark`, as its list of file-system
effects: serialize `\x7b"last": wm\x7d` completely into
`watermark.json.tmp`, then one `os.replace` over `watermark.json`. -/
def save_watermark_ops (wm : String) : List FsOp :=
  [FsOp.write (WATERMARK_FILE ++ ".tmp") (jsonDumpLast wm),
   FsOp.rename (WATERMARK_FILE ++ ".tmp") WATERMARK_FILE]

/-- A parsed JSON value, as `json.load` produces it. -/
inductive JVal where
  | jnull
  | jbool (b : Bool)
  | jnum (q : Rat)
  | jstr (s : String)
  | jarr (elems : List JVal)
  | jobj (fields : List (String × JVal))

/-- Python `data.get(k, dflt)` on a parsed JSON object. -/
def pyDictGet (fields : List (String × JVal)) (k : String) (dflt : JVal) : JVal :=
  match fields.lookup k with
  | some v => v
  | none => dflt

/-- What opening and parsing the watermark file yielded: `none` — the
file does not exist (`os.path.exists` is false); `some (Except.error e)`
— opening or `json.load` raised (unreadable or corrupt file);
`some (Except.ok v)` — the parsed JSON value. -/
abbrev WmFile := Option (Except String JVal)

/-- Source `load_watermark`: missing file → default; any
exception while reading/parsing (including `data.get` on a non-object,
which raises `AttributeError` inside the same `try`) → logged warning
and default; otherwise `data.get("last", DEFAULT_WATERMARK)`. Total: it
never propagates an exception. -/
def load_watermark (file : WmFile) : JVal :=
  match file with
  | none => JVal.jstr DEFAULT_WATERMARK
  | some (Except.error _) => JVal.jstr DEFAULT_WATERMARK
  | some (Except.ok v) =>
    match v with
    | JVal.jobj fields => pyDictGet fields "last" (JVal.jstr DEFAULT_WATERMARK)
    | _ => JVal.jstr DEFAULT_WATERMARK

/-!
## Change Reader: `fetch_rows_after`

Modelled from the spec: the body of `fetch_rows_after` only submits the
SQL text `SELECT ... WHERE updated_at > @last_watermark ORDER BY
updated_at LIMIT limit` to the BigQuery client, whose execution engine
is not part of this repository. Standard SQL semantics of that query
over a table of records: keep rows with `updated_at` above the cursor,
sort ascending by `updated_at`, truncate to `limit`.
-/

/-- Ordering of records by change time (text order on `updated_at`). -/
def recLe (a b : Record) : Prop := a.updated_at.data ≤ b.updated_at.data

instance : DecidableRel recLe :=
  fun a b => inferInstanceAs (Decidable (a.updated_at.data ≤ b.updated_at.data))

instance : IsTotal Record recLe :=
  ⟨fun a b => le_total a.updated_at.data b.updated_at.data⟩

instance : IsTrans Record recLe :=
  ⟨fun _ _ _ hab hbc => le_trans hab hbc⟩

/-- Modelled from the spec: BigQuery's execution of the query in
`fetch_rows_after` (the query engine is external to this repository).
`WHERE updated_at > @last_watermark ORDER BY updated_at LIMIT limit`
over the source table. -/
def fetch_rows_after (table : List Record) (watermark : String) (limit : Nat) : List Record :=
  ((table.filter fun r => pyStrLt watermark r.updated_at).insertionSort recLe).take limit

/-!
## Sync Driver: `run_once`

The driver is embedded as a trace-producing function: it records every
BigQuery fetch, every batch-group send with its outcome, and every
`save_watermark` call, in program order. The Dataverse target is an
oracle `tp : Nat → Chunk → Bool` giving the outcome of the `k`-th
`post_batch` of the run (`false` = `request_with_retry` failed
terminally, which raises through `run_once`). Token acquisition and
config validation precede the loop and are not modelled. One unit of
fuel bounds one iteration of the `while True` page loop.
-/

/-- One batch group: the `(url_path, body)` pairs of a chunk. -/
abbrev Chunk := List (String × Body)

/-- An observable event of one `run_once` execution. -/
inductive Event where
  /-- Call of `fetch_rows_after` with this watermark that returned these rows. -/
  | fetch (wm : String) (rows : List Record)
  /-- Call of `post_batch` on this chunk with this outcome. -/
  | sendChunk (chunk : Chunk) (ok : Bool)
  /-- Call of `save_watermark` with this value. -/
  | save (wm : String)
deriving Repr, DecidableEq

/-- How the run ended. -/
inductive Outcome where
  /-- The loop broke normally (empty page, short page, or cap reached). -/
  | done
  /-- A terminal transport failure raised out of `run_once`. -/
  | failed
  /-- The page loop was still running after the given fuel. -/
  | outOfFuel
deriving Repr, DecidableEq

/-- Result of a bounded `run_once` execution. -/
structure RunRes where
  trace : List Event
  outcome : Outcome
  total : Nat
  wm : String
deriving Repr, DecidableEq

/-- Slice-based chunking of the source loop, bounded
structurally by the list length. A zero batch size is unreachable from
the source (Python's `range` with step 0 raises `ValueError`) and
yields `[]`. -/
def chunkListAux (m : Nat) : Nat → Chunk → List Chunk
  | _, [] => []
  | 0, _ :: _ => []
  | fuel + 1, x :: xs => (x :: xs.take m) :: chunkListAux m fuel (xs.drop m)

/-- Split a change list into groups of `n` (the source's
`for i in range(0, len(changes), BATCH_SIZE)` slicing). -/
def chunkList (n : Nat) (l : Chunk) : List Chunk :=
  match n with
  | 0 => []
  | m + 1 => chunkListAux m l.length l

/-- Result of sending the chunks of one page in sequence. -/
structure SendRes where
  evs : List Event
  sent : Nat
  allOk : Bool
deriving Repr, DecidableEq

/-- Send each chunk of a page in order via the transport oracle; a
failed chunk raises, so no later chunk of the page is attempted. -/
def sendChunks (tp : Nat → Chunk → Bool) : Nat → List Chunk → SendRes
  | sent, [] => ⟨[], sent, true⟩
  | sent, c :: cs =>
    if tp sent c then
      let r := sendChunks tp (sent + 1) cs
      ⟨Event.sendChunk c true :: r.evs, r.sent, r.allOk⟩
    else
      ⟨[Event.sendChunk c false], sent + 1, false⟩

/-- The driver's running maximum: `page_latest` starts at the current
watermark and takes each row's `updated_at` when strictly larger
(Python string comparison). -/
def pageLatest (wm : String) (rows : List Record) : String :=
  rows.foldl (fun acc r => if pyStrLt acc r.updated_at then r.updated_at else acc) wm

/-- Driver configuration: `PAGE_SIZE`, `BATCH_SIZE`, `MAX_BATCH_PER_RUN`. -/
structure Config where
  pageSize : Nat
  batchSize : Nat
  maxPerRun : Option Nat
deriving Repr, DecidableEq

/-- The cap check `if MAX_BATCH_PER_RUN and total_processed >= MAX_BATCH_PER_RUN`
(Python truthiness: `None` and `0` both disable the cap). -/
def capHit (maxPerRun : Option Nat) (total : Nat) : Bool :=
  match maxPerRun with
  | some cap => decide (0 < cap) && decide (cap ≤ total)
  | none => false

/-- The `while True` page loop of `run_once`, carrying the current
watermark `wm` (`newest_wm`), the processed-row count and the send
counter. -/
def run_once_aux (tp : Nat → Chunk → Bool) (table : List Record) (cfg : Config) :
    String → Nat → Nat → Nat → RunRes
  | wm, total, _, 0 => ⟨[], Outcome.outOfFuel, total, wm⟩
  | wm, total, sent, fuel + 1 =>
    if capHit cfg.maxPerRun total then
      ⟨[], Outcome.done, total, wm⟩
    else
      let rows := fetch_rows_after table wm cfg.pageSize
      if rows.isEmpty then
        ⟨[Event.fetch wm rows], Outcome.done, total, wm⟩
      else
        let changes := rows.map map_row_to_request
        let latest := pageLatest wm rows
        let sres := sendChunks tp sent (chunkList cfg.batchSize changes)
        if sres.allOk then
          let total2 := total + rows.length
          let evs := Event.fetch wm rows :: sres.evs ++ [Event.save latest]
          if rows.length < cfg.pageSize then
            ⟨evs, Outcome.done, total2, latest⟩
          else
            let rest := run_once_aux tp table cfg latest total2 sres.sent fuel
            ⟨evs ++ rest.trace, rest.outcome, rest.total, rest.wm⟩
        else
          ⟨Event.fetch wm rows :: sres.evs, Outcome.failed, total, wm⟩

/-- Source `run_once`, from a loaded watermark `wm0`. -/
def run_once (tp : Nat → Chunk → Bool) (table : List Record) (cfg : Config)
    (wm0 : String) (fuel : Nat) : RunRes :=
  run_once_aux tp table cfg wm0 0 0 fuel

/-- The sequence of watermark values passed to `save_watermark`, in
call order. -/
def saves : List Event → List String
  | [] => []
  | Event.save wm :: r => wm :: saves r
  | _ :: r => saves r

/-- Whether a trace event is a BigQuery fetch. -/
def isFetch : Event → Bool
  | Event.fetch _ _ => true
  | _ => false

/-- Whether a trace event is a fetch that returned no rows. -/
def isEmptyFetch : Event → Bool
  | Event.fetch _ rows => rows.isEmpty
  | _ => false

/-- Scanner state for the page-protocol check on a trace. -/
inductive Mode where
  /-- Outside a page; a fetch must come next, and must use the last
  committed watermark when one is recorded. -/
  | expectFetch (lastSaved : Option String)
  /-- Inside a page: sends, then a commit. -/
  | inPage
deriving Repr, DecidableEq

/-- Page protocol on a driver trace: each page is a fetch (with the
last committed watermark as cursor), then only successful sends up to
its `save_watermark` call; a failed send or an empty fetch ends the
trace with no further event — in particular no `save` after a failed
send, and every `save` of a page precedes the next fetch. -/
def pageProtocol : Mode → List Event → Bool
  | _, [] => true
  | Mode.expectFetch ls, Event.fetch wm rows :: rest =>
    (match ls with
     | some s => wm == s
     | none => true) &&
    (if rows.isEmpty then rest.isEmpty else pageProtocol Mode.inPage rest)
  | Mode.inPage, Event.sendChunk _ true :: rest => pageProtocol Mode.inPage rest
  | Mode.inPage, Event.sendChunk _ false :: rest => rest.isEmpty
  | Mode.inPage, Event.save wm :: rest => pageProtocol (Mode.expectFetch (some wm)) rest
  | _, _ => false

/-!
## Concrete instances

Closed inputs used to evaluate the definitions: a three-record source
table with ascending change times, page size 2 and batch-group size 10,
always-succeeding and always-failing transports, and a handful of fixed
response streams.
-/

def T1w : String := "2021-01-01T00:00:00Z"

def T2w : String := "2021-01-02T00:00:00Z"

def T3w : String := "2021-01-03T00:00:00Z"

def rw1 : Record := ⟨some "C1", some "Ann", some "ann@x.test", some "111", T1w⟩

def rw2 : Record := ⟨some "C2", some "Bob", some "bob@x.test", some "222", T2w⟩

def rw3 : Record := ⟨some "C3", some "Cyd", some "cyd@x.test", some "333", T3w⟩

def tblW : List Record := [rw1, rw2, rw3]

def cfgW : Config := ⟨2, 10, none⟩

def tpOkW : Nat → Chunk → Bool := fun _ _ => true

def tpFailW : Nat → Chunk → Bool := fun _ _ => false

def chunkW : Chunk := [map_row_to_request rw1, map_row_to_request rw2]

def rNullId : Record := ⟨none, some "Ann", some "ann@x.test", some "111", T1w⟩

def c304W : Nat → Resp := fun _ => Resp.mk 304 none

def jit0W : Nat → Rat := fun _ => 0

def stream503 : Nat → Resp := fun i => if i < 2 then Resp.mk 503 none else Resp.mk 200 none

def stream400 : Nat → Resp := fun _ => Resp.mk 400 none

def streamRA : Nat → Resp := fun _ => Resp.mk 429 (some (some 7))

def fieldsW : List (String × JVal) := [("last", JVal.jstr "2024-05-01T00:00:00Z")]

/-!
## Transport theorems
-/

/-- Every transient status is one `raise_for_status` would raise on. -/
theorem should_retry_raises {s : Nat} (h : should_retry s = true) : raisesForStatus s = true := by
  simp only [should_retry, Bool.or_eq_true, Nat.beq_eq_true_eq] at h
  rcases h with ((((h | h) | h) | h) | h) <;> subst h <;> decide

/-- Claim C3 (counterexample): a response stream that permanently
returns status 304 — outside both the success set and the transient set
— does not make `request_with_retry` fail terminally at once: after 50
loop iterations the call has neither returned nor raised, and no
backoff wait was ever performed (the claim asserts any non-success
status outside the transient set fails terminally immediately). -/
theorem status_304_not_terminal :
    request_with_retry c304W jit0W 0 0 [] 50 = (RwrResult.outOfFuel, []) := by
  decide

/-- Claim C3 (amended): one-step characterization of the retry loop. A
successful status returns at once; a transient status with remaining
budget is retried with exactly one backoff wait; a transient status
with exhausted budget, and any error status (400–599) outside the
transient set, fail terminally at once with no further wait — in
particular a 400 on the first attempt fails with zero retries; a
non-success status below 400 is re-issued immediately with no wait; and
the stream 503, 503, 200 yields success with exactly two retries. -/
theorem retry_policy_characterization (responses : Nat → Resp) (jit : Nat → Rat) :
    (∀ i a waits fuel, isSuccessStatus (responses i).status = true →
      request_with_retry responses jit i a waits (fuel + 1) =
        (RwrResult.success (responses i), waits))
    ∧ (∀ i a waits fuel, isSuccessStatus (responses i).status = false →
        should_retry (responses i).status = true → a < MAX_R →
        request_with_retry responses jit i a waits (fuel + 1) =
          request_with_retry responses jit (i + 1) (a + 1)
            (waits ++ [computeWait (responses i).retryAfter (a + 1) (jit i)]) fuel)
    ∧ (∀ i a waits fuel, should_retry (responses i).status = true → MAX_R ≤ a →
        request_with_retry responses jit i a waits (fuel + 1) =
          (RwrResult.httpError (responses i).status, waits))
    ∧ (∀ fuel, isSuccessStatus (responses 0).status = false →
        should_retry (responses 0).status = false → raisesForStatus (responses 0).status = true →
        request_with_retry responses jit 0 0 [] (fuel + 1) =
          (RwrResult.httpError (responses 0).status, []))
    ∧ (∀ i a waits fuel, isSuccessStatus (responses i).status = false →
        should_retry (responses i).status = false → raisesForStatus (responses i).status = false →
        request_with_retry responses jit i a waits (fuel + 1) =
          request_with_retry responses jit (i + 1) a waits fuel)
    ∧ (∀ f, (request_with_retry stream503 jit 0 0 [] (f + 3)).1 =
        RwrResult.success (Resp.mk 200 none)
      ∧ (request_with_retry stream503 jit 0 0 [] (f + 3)).2.length = 2) := by
  refine ⟨?_, ?_, ?_, ?_, ?_, ?_⟩
  · intro i a waits fuel hs
    simp [request_with_retry, hs]
  · intro i a waits fuel hs hr hb
    simp [request_with_retry, hs, hr, hb]
  · intro i a waits fuel hr hb
    have hs : isSuccessStatus (responses i).status = false := by
      simp only [should_retry, Bool.or_eq_true, Nat.beq_eq_true_eq] at hr
      rcases hr with ((((h | h) | h) | h) | h) <;> rw [h] <;> decide
    have hb2 : ¬ a < MAX_R := by omega
    simp [request_with_retry, hs, hb2, should_retry_raises hr]
  · intro fuel hs hr hraise
    simp [request_with_retry, hs, hr, hraise]
  · intro i a waits fuel hs hr hraise
    simp [request_with_retry, hs, hr, hraise]
  · intro f
    have h0 : isSuccessStatus (stream503 0).status = false := by decide
    have h1 : isSuccessStatus (stream503 1).status = false := by decide
    have r0 : should_retry (stream503 0).status = true := by decide
    have r1 : should_retry (stream503 1).status = true := by decide
    have h2 : isSuccessStatus (stream503 2).status = true := by decide
    have e2 : stream503 2 = Resp.mk 200 none := by decide
    have hb0 : 0 < MAX_R := by decide
    have hb1 : 1 < MAX_R := by decide
    simp [request_with_retry, h0, h1, h2, r0, r1, hb0, hb1, e2,
      show isSuccessStatus 200 = true from by decide]

/-- Claim C3 (witness): a call whose first response is 400 fails
terminally at once with zero retries; the retry-with-budget step fires
on a 429. -/
theorem retry_policy_witness :
    request_with_retry stream400 jit0W 0 0 [] 9 = (RwrResult.httpError 400, [])
    ∧ request_with_retry streamRA jit0W 0 0 [] 9 =
        request_with_retry streamRA jit0W 1 1 [computeWait (streamRA 0).retryAfter 1 (jit0W 0)] 8 :=
  ⟨(retry_policy_characterization stream400 jit0W).2.2.2.1 8 (by decide) (by decide) (by decide),
   by
    have h := (retry_policy_characterization streamRA jit0W).2.1 0 0 [] 8
      (by decide) (by decide) (by decide)
    simpa using h⟩

/-- Claim C5: when a retry happens at prior-retry count `a` (so the
retried attempt is numbered `a + 1`, from 1), the wait passed to
`time.sleep` is `computeWait`; a parsable `Retry-After` value is used
verbatim, and otherwise (header absent or unparsable) the wait is
`BASE_BACKOFF * 2 ^ (attempt - 1)` plus the jitter draw, which lies in
`[0, 1/2)`. -/
theorem backoff_wait_formula (responses : Nat → Resp) (jit : Nat → Rat)
    (i a fuel : Nat) (waits : List Rat) (hj0 : 0 ≤ jit i) (hj1 : jit i < 1 / 2)
    (hs : isSuccessStatus (responses i).status = false)
    (hr : should_retry (responses i).status = true) (hb : a < MAX_R) :
    request_with_retry responses jit i a waits (fuel + 1) =
      request_with_retry responses jit (i + 1) (a + 1)
        (waits ++ [computeWait (responses i).retryAfter (a + 1) (jit i)]) fuel
    ∧ (∀ d, (responses i).retryAfter = some (some d) →
        computeWait (responses i).retryAfter (a + 1) (jit i) = d)
    ∧ ((responses i).retryAfter = none ∨ (responses i).retryAfter = some none →
        computeWait (responses i).retryAfter (a + 1) (jit i) =
          BASE_BACKOFF * 2 ^ (a + 1 - 1) + jit i
        ∧ 0 ≤ jit i ∧ jit i < 1 / 2) := by
  refine ⟨by simp [request_with_retry, hs, hr, hb], ?_, ?_⟩
  · intro d hd
    simp [computeWait, hd]
  · rintro (hid | hid) <;> exact ⟨by simp [computeWait, hid], hj0, hj1⟩

/-- Claim C5 (witness): on a 429 with `Retry-After: 7` and jitter draw
0, the first retried attempt (attempt 1) waits exactly 7 seconds. -/
theorem backoff_wait_formula_witness :
    request_with_retry streamRA jit0W 0 0 [] 9 =
      request_with_retry streamRA jit0W 1 1 ([] ++ [computeWait (streamRA 0).retryAfter 1 (jit0W 0)]) 8
    ∧ computeWait (streamRA 0).retryAfter 1 (jit0W 0) = 7 := by
  have h := backoff_wait_formula streamRA jit0W 0 0 8 [] (by norm_num [jit0W])
    (by norm_num [jit0W]) (by decide) (by decide) (by decide)
  exact ⟨h.1, h.2.1 7 (by decide)⟩

/-- Claim C10: `request_with_retry` returns normally only with a
response whose status is in the success set \x7b200, 201, 202, 204\x7d;
and on a response stream whose statuses are permanently outside the
success set, the transient set, and the 400–599 range that
`raise_for_status` raises on, the loop neither returns nor raises for
any amount of fuel, re-issuing the request with no wait ever added. -/
theorem success_only_or_loop_forever (responses : Nat → Resp) (jit : Nat → Rat)
    (h : ∀ k, isSuccessStatus (responses k).status = false
      ∧ should_retry (responses k).status = false
      ∧ raisesForStatus (responses k).status = false) :
    (∀ i a waits fuel, request_with_retry responses jit i a waits fuel =
        (RwrResult.outOfFuel, waits))
    ∧ (∀ (rs : Nat → Resp) (js : Nat → Rat) i a waits fuel r w,
        request_with_retry rs js i a waits fuel = (RwrResult.success r, w) →
        isSuccessStatus r.status = true) := by
  constructor
  · intro i a waits fuel
    induction fuel generalizing i with
    | zero => rfl
    | succ n ih =>
      have hk := h i
      simp [request_with_retry, hk.1, hk.2.1, hk.2.2, ih]
  · intro rs js i a waits fuel r w
    induction fuel generalizing i a waits with
    | zero =>
      intro he
      simp only [request_with_retry, Prod.mk.injEq] at he
      exact absurd he.1 (by simp)
    | succ n ih =>
      intro he
      simp only [request_with_retry] at he
      split at he
      · next hs =>
        have e1 : RwrResult.success (rs i) = RwrResult.success r := congrArg Prod.fst he
        injection e1 with e2
        rw [← e2]
        exact hs
      · split at he
        · exact ih _ _ _ he
        · split at he
          · exact absurd (congrArg Prod.fst he) (by simp)
          · exact ih _ _ _ he

/-- Claim C10 (witness): on a permanent-304 stream the loop has neither
returned nor raised after 9 iterations and slept zero times. -/
theorem success_only_or_loop_forever_witness :
    request_with_retry c304W jit0W 2 1 [] 9 = (RwrResult.outOfFuel, []) :=
  (success_only_or_loop_forever c304W jit0W (fun _ => ⟨rfl, rfl, rfl⟩)).1 2 1 [] 9

/-!
## Watermark store theorems
-/

/-- Claim C8: `save_watermark` performs exactly one whole-file write of
the complete serialization of `\x7b"last": wm\x7d` to the temporary
path and then one atomic `os.replace` over the canonical path; after
any prefix of these effects the canonical path holds either its
previous content or the complete new serialization (never a partial
one), and after both effects it holds the new serialization. -/
theorem save_watermark_atomic (fs : Fs) (wm : String) (n : Nat) :
    save_watermark_ops wm =
      [FsOp.write (WATERMARK_FILE ++ ".tmp") (jsonDumpLast wm),
       FsOp.rename (WATERMARK_FILE ++ ".tmp") WATERMARK_FILE]
    ∧ (fsRead (applyOps fs ((save_watermark_ops wm).take n)) WATERMARK_FILE
         = fsRead fs WATERMARK_FILE
       ∨ fsRead (applyOps fs ((save_watermark_ops wm).take n)) WATERMARK_FILE
         = some (jsonDumpLast wm))
    ∧ fsRead (applyOps fs (save_watermark_ops wm)) WATERMARK_FILE = some (jsonDumpLast wm) := by
  have hne : (WATERMARK_FILE == WATERMARK_FILE ++ ".tmp") = false := by decide
  have hfull : fsRead (applyOps fs (save_watermark_ops wm)) WATERMARK_FILE
      = some (jsonDumpLast wm) := by
    simp [save_watermark_ops, applyOps, applyOp, fsRead, List.lookup, hne]
  refine ⟨rfl, ?_, hfull⟩
  match n with
  | 0 => exact Or.inl rfl
  | 1 =>
    left
    simp [save_watermark_ops, applyOps, applyOp, fsRead, List.lookup, hne]
  | (m + 2) =>
    right
    have : (save_watermark_ops wm).take (m + 2) = save_watermark_ops wm := by
      simp [save_watermark_ops]
    rw [this]
    exact hfull

/-- Claim C9: `load_watermark` returns the configured default when no
state file exists and when reading or parsing raised (corruption is
non-fatal: the embedding is a total function, and every such input maps
to the default); when the file parses to an object containing "last",
it returns that stored value. -/
theorem load_watermark_fallback :
    load_watermark none = JVal.jstr DEFAULT_WATERMARK
    ∧ (∀ e, load_watermark (some (Except.error e)) = JVal.jstr DEFAULT_WATERMARK)
    ∧ (∀ fields v, fields.lookup "last" = some v →
        load_watermark (some (Except.ok (JVal.jobj fields))) = v) := by
  refine ⟨rfl, fun e => rfl, ?_⟩
  intro fields v hv
  simp [load_watermark, pyDictGet, hv]

/-- Claim C9 (witness): a well-formed state file yields its stored
"last" value; the lookup hypothesis holds at the concrete input. -/
theorem load_watermark_fallback_witness :
    fieldsW.lookup "last" = some (JVal.jstr "2024-05-01T00:00:00Z")
    ∧ load_watermark (some (Except.ok (JVal.jobj fieldsW)))
        = JVal.jstr "2024-05-01T00:00:00Z" :=
  ⟨rfl, load_watermark_fallback.2.2 fieldsW (JVal.jstr "2024-05-01T00:00:00Z") rfl⟩

/-!
## Row Mapper theorems
-/

/-- Claim C2 (counterexample): on a record whose identifier is `None`,
`map_row_to_request` does not fail — it has no failure branch — and
produces an upsert operation addressing the empty alternate key (an
empty string between the quote delimiters of the resource path),
refuting that a null/empty identifier is rejected with a
`MappingError`. -/
theorem map_null_id_yields_operation :
    map_row_to_request rNullId =
      (DV_ENTITY ++ "(" ++ ALT_KEY_NAME ++ "=" ++ sq ++ sq ++ ")",
       [("new_externalid", none), ("name", some "Ann"),
        ("emailaddress1", some "ann@x.test"), ("telephone1", some "111")]) := by
  decide

/-- Claim C2 (amended): `map_row_to_request` is total and never
rejects; for a record whose identifier is null or empty it produces an
`UpsertOperation` whose resource path carries the empty alternate key
(the target, not the mapper, is left to reject it). -/
theorem map_empty_id_total (r : Record)
    (h : r.externalid = none ∨ r.externalid = some "") :
    map_row_to_request r =
      (DV_ENTITY ++ "(" ++ ALT_KEY_NAME ++ "=" ++ sq ++ sq ++ ")",
       [("new_externalid", r.externalid), ("name", r.name),
        ("emailaddress1", r.email), ("telephone1", r.phone)]) := by
  rcases h with h | h <;>
    simp [map_row_to_request, h, escapeQuotes, pyStr, escQuoteChars]

/-- Claim C2 (amended, witness): the empty-string identifier case. -/
theorem map_empty_id_total_witness :
    ((⟨some "", none, none, none, T1w⟩ : Record).externalid = none
      ∨ (⟨some "", none, none, none, T1w⟩ : Record).externalid = some "")
    ∧ map_row_to_request ⟨some "", none, none, none, T1w⟩ =
        (DV_ENTITY ++ "(" ++ ALT_KEY_NAME ++ "=" ++ sq ++ sq ++ ")",
         [("new_externalid", some ""), ("name", none),
          ("emailaddress1", none), ("telephone1", none)]) :=
  ⟨Or.inr rfl, map_empty_id_total ⟨some "", none, none, none, T1w⟩ (Or.inr rfl)⟩

/-!
## Change Reader theorems
-/

/-- Claim C7: for every source table whose change times are pairwise
distinct (the spec's monotonically increasing cursor column), every
cursor and every page size, the fetched page is strictly ascending by
change time, contains only records with change time strictly above the
cursor, and has at most `limit` records. -/
theorem fetch_rows_after_contract (table : List Record) (C : String) (N : Nat)
    (hdist : table.Pairwise fun a b => a.updated_at ≠ b.updated_at) :
    List.Sorted (fun a b : Record => a.updated_at.data < b.updated_at.data)
      (fetch_rows_after table C N)
    ∧ (fetch_rows_after table C N).all (fun r => pyStrLt C r.updated_at) = true
    ∧ (fetch_rows_after table C N).length ≤ N := by
  have hsortLe : List.Sorted recLe
      ((table.filter fun r => pyStrLt C r.updated_at).insertionSort recLe) :=
    List.sorted_insertionSort recLe _
  have hperm : ((table.filter fun r => pyStrLt C r.updated_at).insertionSort recLe).Perm
      (table.filter fun r => pyStrLt C r.updated_at) :=
    List.perm_insertionSort recLe _
  have hdistSort : ((table.filter fun r => pyStrLt C r.updated_at).insertionSort recLe).Pairwise
      fun a b => a.updated_at ≠ b.updated_at :=
    (List.Perm.pairwise_iff (fun h => h.symm) hperm).mpr
      (List.Pairwise.filter _ hdist)
  have hstrict : ((table.filter fun r => pyStrLt C r.updated_at).insertionSort recLe).Pairwise
      fun a b => a.updated_at.data < b.updated_at.data := by
    refine (List.Pairwise.and hsortLe hdistSort).imp ?_
    rintro a b ⟨hle, hne⟩
    exact lt_of_le_of_ne hle fun hdata => hne (String.ext hdata)
  refine ⟨List.Pairwise.sublist (List.take_sublist _ _) hstrict, ?_, ?_⟩
  · rw [List.all_eq_true]
    intro r hr
    have hmem : r ∈ table.filter fun r => pyStrLt C r.updated_at :=
      hperm.mem_iff.mp (List.mem_of_mem_take hr)
    exact (List.mem_filter.mp hmem).2
  · rw [fetch_rows_after, List.length_take]
    exact min_le_left _ _

/-- Claim C7 (witness): the contract at the concrete three-record
table, cursor below all change times and page size 2. -/
theorem fetch_rows_after_contract_witness :
    (tblW.Pairwise fun a b => a.updated_at ≠ b.updated_at)
    ∧ List.Sorted (fun a b : Record => a.updated_at.data < b.updated_at.data)
        (fetch_rows_after tblW DEFAULT_WATERMARK 2)
    ∧ (fetch_rows_after tblW DEFAULT_WATERMARK 2).all
        (fun r => pyStrLt DEFAULT_WATERMARK r.updated_at) = true
    ∧ (fetch_rows_after tblW DEFAULT_WATERMARK 2).length ≤ 2 :=
  ⟨by decide, fetch_rows_after_contract tblW DEFAULT_WATERMARK 2 (by decide)⟩

/-!
## Sync Driver lemmas
-/

theorem saves_append (a b : List Event) : saves (a ++ b) = saves a ++ saves b := by
  induction a with
  | nil => rfl
  | cons e r ih => cases e <;> simp [saves, ih]

theorem sendChunks_no_save (tp : Nat → Chunk → Bool) (cs : List Chunk) :
    ∀ sent, saves (sendChunks tp sent cs).evs = [] := by
  induction cs with
  | nil => intro sent; rfl
  | cons c0 cs ih =>
    intro sent
    by_cases ht : tp sent c0 = true
    · simp [sendChunks, ht, saves, ih]
    · simp [sendChunks, ht, saves]

theorem sendChunks_mem_false (tp : Nat → Chunk → Bool) (cs : List Chunk) :
    ∀ sent c, Event.sendChunk c false ∈ (sendChunks tp sent cs).evs →
      (sendChunks tp sent cs).allOk = false := by
  induction cs with
  | nil => intro sent c hc; simp [sendChunks] at hc
  | cons c0 cs ih =>
    intro sent c hc
    by_cases ht : tp sent c0 = true
    · simp only [sendChunks, ht, if_true, List.mem_cons] at hc ⊢
      rcases hc with hc | hc
      · cases hc
      · exact ih (sent + 1) c hc
    · simp [sendChunks, ht]

theorem sendChunks_protocol_ok (tp : Nat → Chunk → Bool) (cs : List Chunk) :
    ∀ sent, (sendChunks tp sent cs).allOk = true →
      ∀ k, pageProtocol Mode.inPage ((sendChunks tp sent cs).evs ++ k)
        = pageProtocol Mode.inPage k := by
  induction cs with
  | nil => intro sent _ k; rfl
  | cons c0 cs ih =>
    intro sent h k
    by_cases ht : tp sent c0 = true
    · simp only [sendChunks, ht, if_true] at h ⊢
      rw [List.cons_append, pageProtocol]
      exact ih (sent + 1) h k
    · simp [sendChunks, ht] at h

theorem sendChunks_protocol_fail (tp : Nat → Chunk → Bool) (cs : List Chunk) :
    ∀ sent, (sendChunks tp sent cs).allOk = false →
      pageProtocol Mode.inPage (sendChunks tp sent cs).evs = true := by
  induction cs with
  | nil => intro sent h; cases h
  | cons c0 cs ih =>
    intro sent h
    by_cases ht : tp sent c0 = true
    · simp only [sendChunks, ht, if_true] at h ⊢
      rw [pageProtocol]
      exact ih (sent + 1) h
    · simp [sendChunks, ht, pageProtocol]

theorem le_pageLatest (rows : List Record) :
    ∀ wm : String, wm.data ≤ (pageLatest wm rows).data := by
  induction rows with
  | nil => intro wm; exact le_refl _
  | cons r rows ih =>
    intro wm
    rw [pageLatest, List.foldl_cons]
    refine le_trans ?_ (ih _)
    by_cases h : pyStrLt wm r.updated_at = true
    · have hlt : wm.data < r.updated_at.data := of_decide_eq_true h
      simp [h]
      exact le_of_lt hlt
    · simp [h]

/-- Step equation: cap reached. -/
theorem run_once_aux_cap (tp : Nat → Chunk → Bool) (table : List Record) (cfg : Config)
    (wm : String) (total sent n : Nat) (h : capHit cfg.maxPerRun total = true) :
    run_once_aux tp table cfg wm total sent (n + 1) = ⟨[], Outcome.done, total, wm⟩ := by
  simp [run_once_aux, h]

/-- Step equation: empty page. -/
theorem run_once_aux_empty (tp : Nat → Chunk → Bool) (table : List Record) (cfg : Config)
    (wm : String) (total sent n : Nat) (hcap : capHit cfg.maxPerRun total = false)
    (hrows : fetch_rows_after table wm cfg.pageSize = []) :
    run_once_aux tp table cfg wm total sent (n + 1)
      = ⟨[Event.fetch wm []], Outcome.done, total, wm⟩ := by
  simp [run_once_aux, hcap, hrows]

/-- Step equation: a send of the page failed terminally. -/
theorem run_once_aux_fail (tp : Nat → Chunk → Bool) (table : List Record) (cfg : Config)
    (wm : String) (total sent n : Nat) (rows : List Record)
    (hcap : capHit cfg.maxPerRun total = false)
    (hrows : fetch_rows_after table wm cfg.pageSize = rows) (hne : rows.isEmpty = false)
    (hok : (sendChunks tp sent (chunkList cfg.batchSize (rows.map map_row_to_request))).allOk
      = false) :
    run_once_aux tp table cfg wm total sent (n + 1)
      = ⟨Event.fetch wm rows ::
          (sendChunks tp sent (chunkList cfg.batchSize (rows.map map_row_to_request))).evs,
         Outcome.failed, total, wm⟩ := by
  simp [run_once_aux, hcap, hrows, hne, hok]

/-- Step equation: page succeeded and was short — the loop ends. -/
theorem run_once_aux_short (tp : Nat → Chunk → Bool) (table : List Record) (cfg : Config)
    (wm : String) (total sent n : Nat) (rows : List Record)
    (hcap : capHit cfg.maxPerRun total = false)
    (hrows : fetch_rows_after table wm cfg.pageSize = rows) (hne : rows.isEmpty = false)
    (hok : (sendChunks tp sent (chunkList cfg.batchSize (rows.map map_row_to_request))).allOk
      = true)
    (hshort : rows.length < cfg.pageSize) :
    run_once_aux tp table cfg wm total sent (n + 1)
      = ⟨Event.fetch wm rows ::
          (sendChunks tp sent (chunkList cfg.batchSize (rows.map map_row_to_request))).evs
          ++ [Event.save (pageLatest wm rows)],
         Outcome.done, total + rows.length, pageLatest wm rows⟩ := by
  simp [run_once_aux, hcap, hrows, hne, hok, hshort]

/-- Step equation: page succeeded at full page size — the loop
continues from the committed watermark. -/
theorem run_once_aux_full (tp : Nat → Chunk → Bool) (table : List Record) (cfg : Config)
    (wm : String) (total sent n : Nat) (rows : List Record)
    (hcap : capHit cfg.maxPerRun total = false)
    (hrows : fetch_rows_after table wm cfg.pageSize = rows) (hne : rows.isEmpty = false)
    (hok : (sendChunks tp sent (chunkList cfg.batchSize (rows.map map_row_to_request))).allOk
      = true)
    (hfull : ¬ rows.length < cfg.pageSize) :
    run_once_aux tp table cfg wm total sent (n + 1)
      = ⟨(Event.fetch wm rows ::
            (sendChunks tp sent (chunkList cfg.batchSize (rows.map map_row_to_request))).evs
            ++ [Event.save (pageLatest wm rows)])
          ++ (run_once_aux tp table cfg (pageLatest wm rows) (total + rows.length)
              (sendChunks tp sent (chunkList cfg.batchSize (rows.map map_row_to_request))).sent
              n).trace,
         (run_once_aux tp table cfg (pageLatest wm rows) (total + rows.length)
           (sendChunks tp sent (chunkList cfg.batchSize (rows.map map_row_to_request))).sent
           n).outcome,
         (run_once_aux tp table cfg (pageLatest wm rows) (total + rows.length)
           (sendChunks tp sent (chunkList cfg.batchSize (rows.map map_row_to_request))).sent
           n).total,
         (run_once_aux tp table cfg (pageLatest wm rows) (total + rows.length)
           (sendChunks tp sent (chunkList cfg.batchSize (rows.map map_row_to_request))).sent
           n).wm⟩ := by
  simp [run_once_aux, hcap, hrows, hne, hok, hfull]

/-- The three page-loop invariants of `run_once_aux`, for every
transport behavior, table, configuration and fuel: the trace follows
the page protocol starting from the loaded watermark, a terminally
failed send makes the whole run fail, and the resulting watermark is
exactly the last committed one (the starting value when none was
committed). -/
theorem run_once_aux_invariants (tp : Nat → Chunk → Bool) (table : List Record)
    (cfg : Config) :
    ∀ fuel wm total sent,
      pageProtocol (Mode.expectFetch (some wm))
        (run_once_aux tp table cfg wm total sent fuel).trace = true
      ∧ (∀ c, Event.sendChunk c false ∈ (run_once_aux tp table cfg wm total sent fuel).trace →
          (run_once_aux tp table cfg wm total sent fuel).outcome = Outcome.failed)
      ∧ (run_once_aux tp table cfg wm total sent fuel).wm
          = (saves (run_once_aux tp table cfg wm total sent fuel).trace).getLastD wm := by
  intro fuel
  induction fuel with
  | zero =>
    intro wm total sent
    exact ⟨rfl, fun c hc => absurd hc (List.not_mem_nil _), rfl⟩
  | succ n ih =>
    intro wm total sent
    by_cases hcap : capHit cfg.maxPerRun total = true
    · rw [run_once_aux_cap tp table cfg wm total sent n hcap]
      exact ⟨rfl, fun c hc => absurd hc (List.not_mem_nil _), rfl⟩
    · rw [Bool.not_eq_true] at hcap
      cases hrows : fetch_rows_after table wm cfg.pageSize with
      | nil =>
        rw [run_once_aux_empty tp table cfg wm total sent n hcap hrows]
        refine ⟨by simp [pageProtocol], ?_, rfl⟩
        intro c hc
        simp at hc
      | cons r rs =>
        have hne : (r :: rs).isEmpty = false := rfl
        by_cases hok : (sendChunks tp sent
            (chunkList cfg.batchSize ((r :: rs).map map_row_to_request))).allOk = true
        · by_cases hshort : (r :: rs).length < cfg.pageSize
          · rw [run_once_aux_short tp table cfg wm total sent n (r :: rs) hcap hrows hne hok
              hshort]
            refine ⟨?_, ?_, ?_⟩
            · simp only [pageProtocol, hne, beq_self_eq_true, Bool.true_and,
                Bool.false_eq_true, if_false, List.append_eq]
              rw [sendChunks_protocol_ok tp _ sent hok [Event.save (pageLatest wm (r :: rs))]]
              rfl
            · intro c hc
              simp at hc
              have hmf := sendChunks_mem_false tp _ sent c hc
              rw [← List.map_cons] at hmf
              rw [hok] at hmf
              simp at hmf
            · simp [saves, saves_append, sendChunks_no_save, List.getLastD]
          · rw [run_once_aux_full tp table cfg wm total sent n (r :: rs) hcap hrows hne hok
              hshort]
            obtain ⟨ihp, ihm, ihw⟩ := ih (pageLatest wm (r :: rs)) (total + (r :: rs).length)
              (sendChunks tp sent
                (chunkList cfg.batchSize ((r :: rs).map map_row_to_request))).sent
            refine ⟨?_, ?_, ?_⟩
            · rw [List.cons_append]
              simp only [pageProtocol, hne, beq_self_eq_true, Bool.true_and,
                Bool.false_eq_true, if_false, List.append_eq]
              rw [List.append_assoc, sendChunks_protocol_ok tp _ sent hok]
              rw [List.singleton_append]
              simp only [pageProtocol]
              exact ihp
            · intro c hc
              simp at hc
              rcases hc with hc | hc
              · have hmf := sendChunks_mem_false tp _ sent c hc
                rw [← List.map_cons] at hmf
                rw [hok] at hmf
                simp at hmf
              · exact ihm c hc
            · rw [List.cons_append]
              simp only [List.append_eq, saves, saves_append, sendChunks_no_save,
                List.nil_append, List.singleton_append, List.cons_append,
                List.getLastD_cons]
              exact ihw
        · rw [Bool.not_eq_true] at hok
          rw [run_once_aux_fail tp table cfg wm total sent n (r :: rs) hcap hrows hne hok]
          refine ⟨?_, fun c hc => rfl, ?_⟩
          · simp only [pageProtocol, hne, beq_self_eq_true, Bool.true_and,
              Bool.false_eq_true, if_false, List.append_eq]
            exact sendChunks_protocol_fail tp _ sent hok
          · simp [saves, sendChunks_no_save, List.getLastD]

/-- Claim C1: in every `run_once` execution — for every transport
behavior, source table, configuration, loaded watermark and fuel — the
trace follows the page protocol: each page's `save_watermark` call
comes only after every batch-group send of that page returned success,
a terminally failed send is the last event of the trace (so the run
aborts, with outcome `failed`, before any further commit or fetch), the
final watermark equals the last committed value (the loaded one if the
failure struck the first page), and each fetch after the first is
issued with the watermark committed just before it. -/
theorem watermark_commit_protocol (tp : Nat → Chunk → Bool) (table : List Record)
    (cfg : Config) (wm0 : String) (fuel : Nat) :
    pageProtocol (Mode.expectFetch (some wm0)) (run_once tp table cfg wm0 fuel).trace = true
    ∧ (∀ c, Event.sendChunk c false ∈ (run_once tp table cfg wm0 fuel).trace →
        (run_once tp table cfg wm0 fuel).outcome = Outcome.failed)
    ∧ (run_once tp table cfg wm0 fuel).wm
        = (saves (run_once tp table cfg wm0 fuel).trace).getLastD wm0 :=
  run_once_aux_invariants tp table cfg fuel wm0 0 0

/-- Claim C1 (witness): with an always-failing transport on the
three-record table, the failed first chunk is in the trace and the run
ends `failed`; the page protocol holds on the successful run too. -/
theorem watermark_commit_protocol_witness :
    Event.sendChunk chunkW false ∈ (run_once tpFailW tblW cfgW DEFAULT_WATERMARK 5).trace
    ∧ (run_once tpFailW tblW cfgW DEFAULT_WATERMARK 5).outcome = Outcome.failed :=
  ⟨by decide,
   (watermark_commit_protocol tpFailW tblW cfgW DEFAULT_WATERMARK 5).2.1 chunkW (by decide)⟩

/-- The committed watermark values of `run_once_aux` form a
non-decreasing chain above the starting watermark. -/
theorem run_once_aux_monotone (tp : Nat → Chunk → Bool) (table : List Record)
    (cfg : Config) :
    ∀ fuel wm total sent,
      List.Chain' (fun a b => pyStrLe a b = true)
        (wm :: saves (run_once_aux tp table cfg wm total sent fuel).trace) := by
  intro fuel
  induction fuel with
  | zero => intro wm total sent; exact List.chain'_singleton wm
  | succ n ih =>
    intro wm total sent
    by_cases hcap : capHit cfg.maxPerRun total = true
    · rw [run_once_aux_cap tp table cfg wm total sent n hcap]
      exact List.chain'_singleton wm
    · rw [Bool.not_eq_true] at hcap
      cases hrows : fetch_rows_after table wm cfg.pageSize with
      | nil =>
        rw [run_once_aux_empty tp table cfg wm total sent n hcap hrows]
        exact List.chain'_singleton wm
      | cons r rs =>
        have hne : (r :: rs).isEmpty = false := rfl
        have hle : pyStrLe wm (pageLatest wm (r :: rs)) = true :=
          decide_eq_true (le_pageLatest (r :: rs) wm)
        by_cases hok : (sendChunks tp sent
            (chunkList cfg.batchSize ((r :: rs).map map_row_to_request))).allOk = true
        · by_cases hshort : (r :: rs).length < cfg.pageSize
          · rw [run_once_aux_short tp table cfg wm total sent n (r :: rs) hcap hrows hne hok
              hshort]
            simp only [saves, saves_append, sendChunks_no_save, List.nil_append,
              List.append_eq, List.singleton_append]
            exact List.chain'_pair.mpr hle
          · rw [run_once_aux_full tp table cfg wm total sent n (r :: rs) hcap hrows hne hok
              hshort]
            rw [List.cons_append]
            simp only [List.append_eq, saves, saves_append, sendChunks_no_save,
              List.nil_append, List.singleton_append, List.cons_append]
            exact List.chain'_cons.mpr ⟨hle, ih (pageLatest wm (r :: rs)) _ _⟩
        · rw [Bool.not_eq_true] at hok
          rw [run_once_aux_fail tp table cfg wm total sent n (r :: rs) hcap hrows hne hok]
          simp only [saves, sendChunks_no_save]
          exact List.chain'_singleton wm

/-- Claim C6: across any run — whatever the transport, table,
configuration and fuel — the values passed to `save_watermark` are
monotonically non-decreasing under the driver's string order on
timestamps, and never drop below the loaded watermark: each committed
value is the running maximum of the cursor and the page's change
times. -/
theorem watermark_monotone (tp : Nat → Chunk → Bool) (table : List Record)
    (cfg : Config) (wm0 : String) (fuel : Nat) :
    List.Chain' (fun a b => pyStrLe a b = true)
      (wm0 :: saves (run_once tp table cfg wm0 fuel).trace) :=
  run_once_aux_monotone tp table cfg fuel wm0 0 0

/-- Claim C4 (counterexample): on the three-record table with change
times T1 < T2 < T3, page size 2 and batch-group size 10, the run issues
exactly two fetches — the second page is short (1 < 2), so the loop
breaks without the claimed third, empty fetch — while still finishing
`done` with 3 records processed and final watermark T3. -/
theorem no_third_empty_fetch :
    (run_once tpOkW tblW cfgW DEFAULT_WATERMARK 10).trace.countP isFetch = 2
    ∧ (run_once tpOkW tblW cfgW DEFAULT_WATERMARK 10).trace.all
        (fun e => !isEmptyFetch e) = true
    ∧ (run_once tpOkW tblW cfgW DEFAULT_WATERMARK 10).outcome = Outcome.done
    ∧ (run_once tpOkW tblW cfgW DEFAULT_WATERMARK 10).total = 3 := by
  decide

/-- Claim C4 (amended): with 3 records at T1 < T2 < T3, page size 2 and
batch-group size 10, the first fetch returns records 1 and 2 and the
watermark becomes T2; the second fetch returns record 3 and the
watermark becomes T3; that page is shorter than the page size, so the
run transitions to Done without issuing a third fetch, with total
processed = 3. -/
theorem run_three_records_two_pages :
    run_once tpOkW tblW cfgW DEFAULT_WATERMARK 10 =
      ⟨[Event.fetch DEFAULT_WATERMARK [rw1, rw2],
        Event.sendChunk [map_row_to_request rw1, map_row_to_request rw2] true,
        Event.save T2w,
        Event.fetch T2w [rw3],
        Event.sendChunk [map_row_to_request rw3] true,
        Event.save T3w],
       Outcome.done, 3, T3w⟩ := by
  decide

end BqToDv
